import Mathlib

/-!
# Verification of the property-data normalization layer

Shallow embedding, in Lean 4, of the pure data-transformation core of
`tools.py` (address parsing, ATTOM field mapping, the Rentcast
estimated-value preference chain, and the valuation-report aggregation),
together with theorems settling the specification's claims about it.

Python strings are modelled as `List Char` (`PyStr`); the Python string
operations used by the source (`str.split(',')`, `str.split()`,
`str.strip()`, `str.upper()`, `','.join`, `in`) are embedded as
executable functions on `List Char` with matching semantics.  JSON
numbers are modelled as `ℚ`; JSON fields that may be absent (or `null`)
are modelled as `Option` (the source reads them with `dict.get(key,
default)`, embedded as `Option.getD`).
-/

/-- Python strings, as lists of characters. -/
abbrev PyStr := List Char

/-- The whitespace characters recognised by Python's `str.split()` /
`str.strip()` (ASCII subset, which is all the source ever meets). -/
def isPyWs (c : Char) : Bool :=
  c == ' ' || c == '\t' || c == '\n' || c == '\x0d' || c == '\x0b' || c == '\x0c'

/-- Split a list at every element satisfying `p`, keeping empty pieces —
the common core of Python's `str.split(sep)` and `str.split()`. -/
def pySplitPred (p : Char → Bool) : PyStr → List PyStr
  | [] => [[]]
  | x :: xs =>
    match pySplitPred p xs with
    | [] => [[]]
    | h :: t => if p x then [] :: h :: t else (x :: h) :: t

/-- Python `s.split(c)` for a one-character separator: split at every
occurrence, keeping empty pieces (`"".split(',') == [""]`). -/
def pySplitOnChar (c : Char) (s : PyStr) : List PyStr :=
  pySplitPred (fun ch => ch == c) s

/-- Python `s.split()` (no argument): split on whitespace runs,
discarding empty pieces. -/
def pySplitWs (s : PyStr) : List PyStr :=
  (pySplitPred isPyWs s).filter (fun w => w ≠ [])

/-- Python `s.strip()`: remove leading and trailing whitespace. -/
def pyStrip (s : PyStr) : PyStr :=
  ((s.dropWhile isPyWs).reverse.dropWhile isPyWs).reverse

/-- Python `sep.join(pieces)`. -/
def pyJoin (sep : PyStr) (pieces : List PyStr) : PyStr :=
  List.intercalate sep pieces

/-- Python `s.upper()` (ASCII). -/
def pyUpper (s : PyStr) : PyStr := s.map Char.toUpper

/-- The parsed-address record produced by `parse_address` in
`tools.py`: four always-present, possibly-empty string fields. -/
structure AddressParts where
  street_address : PyStr
  city : PyStr
  state : PyStr
  zip_code : PyStr
deriving DecidableEq, Repr

/-- Embedding of `parse_address` (tools.py).  The Python body is wrapped
in `try/except` with the defaults kept on error; none of the operations
in the body can raise, so the embedding is the body itself, a total
function.  Split on commas: part 0 → street, part 1 → city, part 2 →
`"STATE ZIP"`.  When the city came out empty and the address contains a
space, a trailing `"ST 12345"`-shaped word pair is recognised instead. -/
def parse_address (address : PyStr) : AddressParts :=
  let parts := pySplitOnChar ',' address
  let street0 := pyStrip (parts.getD 0 [])
  let city0 := if parts.length > 1 then pyStrip (parts.getD 1 []) else []
  let stZp :=
    if parts.length > 2 then
      let state_zip := pyStrip (parts.getD 2 [])
      let szp := pySplitWs state_zip
      let st := if szp.length > 0 then pyStrip (szp.getD 0 []) else []
      let zp := if szp.length > 1 then pyStrip (pyJoin [' '] (szp.drop 1)) else []
      (st, zp)
    else ([], [])
  if city0 = [] ∧ ' ' ∈ address then
    let words := pySplitWs address
    if words.length ≥ 3 then
      let w2 := words.getD (words.length - 2) []
      if pyUpper w2 = w2 ∧ w2.length ≤ 2 then
        let street1 := pyJoin [' '] (words.take (words.length - 2))
        let zip1 := words.getD (words.length - 1) []
        let street_parts := pySplitOnChar ',' street1
        if street_parts.length > 1 then
          { street_address := pyStrip (pyJoin [','] (street_parts.take (street_parts.length - 1)))
            city := pyStrip (street_parts.getD (street_parts.length - 1) [])
            state := w2
            zip_code := zip1 }
        else
          { street_address := street1, city := city0, state := w2, zip_code := zip1 }
      else ⟨street0, city0, stZp.1, stZp.2⟩
    else ⟨street0, city0, stZp.1, stZp.2⟩
  else ⟨street0, city0, stZp.1, stZp.2⟩

/-- A maximal-digit-run detector: `hasZip5 s` holds when `s` contains a
maximal run of exactly five decimal digits — the spec's notion of "a
5-digit zip code anywhere in the string". -/
def digitRunLengths (s : PyStr) : List Nat :=
  ((pySplitPred (fun c => !c.isDigit) s).filter (fun r => r ≠ [])).map List.length

def hasZip5 (s : PyStr) : Bool := digitRunLengths s |>.contains 5

/-! ### Python number display formatting

The source renders numbers with f-strings: `f"{n:,}"` (thousands
separators), `f"{n}"` (plain decimal), and coerces with `int(x)`
(truncation toward zero). -/

/-- Python `int(x)` on a rational: truncation toward zero. -/
def pyIntQ (q : ℚ) : ℤ := if 0 ≤ q then ⌊q⌋ else ⌈q⌉

/-- Decimal digits of `n`, least significant first (fuel-bounded
structural recursion so the kernel can evaluate it). -/
def natDigitsRevAux : Nat → Nat → List Nat
  | 0, _ => []
  | fuel + 1, n => if n < 10 then [n] else n % 10 :: natDigitsRevAux fuel (n / 10)

def natDigitsRev (n : Nat) : List Nat := natDigitsRevAux (n + 1) n

/-- Python `str(n)` / `f"{n}"` for a natural number. -/
def pyStrOfNat (n : Nat) : PyStr := ((natDigitsRev n).map Nat.digitChar).reverse

/-- Python `f"{i}"` for an integer. -/
def pyStrOfInt (i : ℤ) : PyStr :=
  if i < 0 then '-' :: pyStrOfNat i.natAbs else pyStrOfNat i.natAbs

/-- Group a reversed (least-significant-first) digit list in threes,
for thousands separators. -/
def chunk3 : List Char → List (List Char)
  | a :: b :: c :: d :: rest => [a, b, c] :: chunk3 (d :: rest)
  | l => [l]

/-- Python `f"{n:,}"` for a natural number: decimal digits with a comma
every three digits. -/
def commaFmtNat (n : Nat) : PyStr :=
  (List.intercalate [','] (chunk3 ((natDigitsRev n).map Nat.digitChar))).reverse

/-- Python `f"{i:,}"` for an integer. -/
def commaFmtInt (i : ℤ) : PyStr :=
  if i < 0 then '-' :: commaFmtNat i.natAbs else commaFmtNat i.natAbs

/-! ### ATTOM adapter: bathroom normalization (`get_property_details`)

The relevant source lines read
`bathrooms = rooms.get("bathstotal", 0)` and,
`if not bathrooms`, recompute `full_baths + half_baths * 0.5` where
`full_baths = rooms.get("bathsfull", 0) or 0` and
`half_baths = rooms.get("bathshalf", 0) or 0`.
A field that is absent or JSON `null` is modelled as `none`. -/

structure AttomRooms where
  bathstotal : Option ℚ
  bathsfull : Option ℚ
  bathshalf : Option ℚ
deriving DecidableEq, Repr

/-- Embedding of the bathroom computation in `get_property_details`
(tools.py).  Note the fallback triggers whenever `bathstotal` is falsy
in Python — absent, `null`, or `0`. -/
def attomBathrooms (rooms : AttomRooms) : ℚ :=
  let bathrooms := rooms.bathstotal.getD 0
  if bathrooms = 0 then
    let full_baths := rooms.bathsfull.getD 0
    let half_baths := rooms.bathshalf.getD 0
    full_baths + half_baths * 0.5
  else bathrooms

/-! ### Valuation adapter and aggregation (`property_valuation`)

A comparable as read from the provider payload; every field is read
with `comp.get(key, default)`, so absent/`null` fields are `Option`. -/

structure Comp where
  formattedAddress : PyStr
  price : Option ℚ
  bedrooms : Option ℚ
  bathrooms : Option ℚ
  squareFootage : Option ℚ
  yearBuilt : Option ℚ
  distance : Option ℚ
  daysOnMarket : Option ℚ
deriving DecidableEq, Repr

/-- `avg_price = sum(comp.get("price", 0) for comp in comparables) /
len(comparables) if comparables else 0`. -/
def avgPrice (comps : List Comp) : ℚ :=
  if comps ≠ [] then
    (comps.map fun c => c.price.getD 0).sum / (comps.length : ℚ)
  else 0

/-- `avg_price_per_sqft = sum(comp.get("price", 0) /
comp.get("squareFootage", 1) for comp in comparables) /
len(comparables) if comparables else 0` — an average of per-comparable
ratios. -/
def avgPricePerSqft (comps : List Comp) : ℚ :=
  if comps ≠ [] then
    (comps.map fun c => c.price.getD 0 / c.squareFootage.getD 1).sum / (comps.length : ℚ)
  else 0

/-- `avg_days = sum(comp.get("daysOnMarket", 0) for comp in
comparables) / len(comparables) if comparables else 0`. -/
def avgDays (comps : List Comp) : ℚ :=
  if comps ≠ [] then
    (comps.map fun c => c.daysOnMarket.getD 0).sum / (comps.length : ℚ)
  else 0

/-- The alternative the spec explicitly rules out: total price divided
by total area (ratio of sums).  Defined only to be compared against the
implementation's average of ratios. -/
def ratioOfSumsAlt (comps : List Comp) : ℚ :=
  (comps.map fun c => c.price.getD 0).sum / (comps.map fun c => c.squareFootage.getD 1).sum

/-- The `MARKET ANALYSIS SUMMARY` block of the report
(`property_valuation`, tools.py): average price with `${int(x):,}`,
average price per square foot with `${int(x)}`, average days with
`{int(x)} days`, and the comparable count. -/
def marketAnalysisSummary (comps : List Comp) : PyStr :=
  "\nMARKET ANALYSIS SUMMARY (EXACT VALUES):\n• EXACT Average Comparable Price: $".toList
  ++ commaFmtInt (pyIntQ (avgPrice comps))
  ++ "\n• EXACT Average Price per Square Foot: $".toList
  ++ pyStrOfInt (pyIntQ (avgPricePerSqft comps))
  ++ "\n• EXACT Average Days on Market: ".toList
  ++ pyStrOfInt (pyIntQ (avgDays comps))
  ++ " days\n• EXACT Number of Comparable Properties: ".toList
  ++ pyStrOfNat comps.length
  ++ "\n".toList

/-- Python `repr`-style rendering of a payload number for the raw
`{comp_bathrooms}` and `{comp_days}` interpolations: an integer renders
bare, a non-integer renders with its decimal digits (fuel-bounded
expansion; the provider's values have short decimal parts). -/
def fracDigitsAux : Nat → ℚ → PyStr
  | 0, _ => []
  | fuel + 1, q =>
    if q = 0 then []
    else
      let q10 := q * 10
      Nat.digitChar ⌊q10⌋.toNat :: fracDigitsAux fuel (q10 - ⌊q10⌋)

def pyNumRepr (q : ℚ) : PyStr :=
  if q.den = 1 then pyStrOfInt q.num
  else if 0 ≤ q then pyStrOfInt ⌊q⌋ ++ '.' :: fracDigitsAux 17 (q - ⌊q⌋)
  else '-' :: (pyStrOfInt ⌊-q⌋ ++ '.' :: fracDigitsAux 17 (-q - ⌊-q⌋))

/-- Python `f"{x:.2f}"`: fixed two-decimal rendering, rounding half to
even (as `format` does on the provider's decimal values). -/
def roundHalfEven (q : ℚ) : ℤ :=
  if q - ⌊q⌋ = 1/2 then (if Even ⌊q⌋ then ⌊q⌋ else ⌊q⌋ + 1) else round q

def fmt2f (q : ℚ) : PyStr :=
  let c := roundHalfEven (q * 100)
  let sign : PyStr := if c < 0 then ['-'] else []
  let whole := c.natAbs / 100
  let frac := c.natAbs % 100
  sign ++ pyStrOfNat whole ++ '.' :: (if frac < 10 then '0' :: pyStrOfNat frac else pyStrOfNat frac)

/-- One `Comparable #i:` block of the report (`property_valuation`,
tools.py), for a 1-based index `i`. -/
def compDetailBlock (i : Nat) (c : Comp) : PyStr :=
  "\nComparable #".toList ++ pyStrOfNat i
  ++ ":\n• Address: ".toList ++ c.formattedAddress
  ++ "\n• EXACT Price: $".toList ++ commaFmtInt (pyIntQ (c.price.getD 0))
  ++ "\n• EXACT Details: ".toList ++ pyStrOfInt (pyIntQ (c.bedrooms.getD 0))
  ++ " bed, ".toList ++ pyNumRepr (c.bathrooms.getD 0)
  ++ " bath, ".toList ++ commaFmtInt (pyIntQ (c.squareFootage.getD 0))
  ++ " sq ft\n• EXACT Year Built: ".toList ++ pyStrOfInt (pyIntQ (c.yearBuilt.getD 0))
  ++ "\n• EXACT Distance: ".toList ++ fmt2f (c.distance.getD 0)
  ++ " miles\n• EXACT Days on Market: ".toList ++ pyNumRepr (c.daysOnMarket.getD 0)
  ++ "\n".toList

/-- The per-comparable section of the report: `for i, comp in
enumerate(comparables[:5], 1)` — only the first five comparables are
rendered. -/
def compDetailSection (comps : List Comp) : PyStr :=
  ((List.enumFrom 1 (comps.take 5)).map fun p => compDetailBlock p.1 p.2).flatten

/-- The subject-property `EXACT Estimated Value` figure of the report:
`f"${int(estimated_value):,}"`. -/
def renderEstimatedValue (v : ℚ) : PyStr :=
  '$' :: commaFmtInt (pyIntQ v)

/-- A concrete pair of comparables on which the average of per-comp
price/area ratios and the ratio of sums visibly disagree
(`(100/1 + 100/100)/2 = 50.5` versus `200/101`). -/
def ratioSepExample : List Comp :=
  [{ formattedAddress := [], price := some 100, bedrooms := none, bathrooms := none,
     squareFootage := some 1, yearBuilt := none, distance := none, daysOnMarket := some 10 },
   { formattedAddress := [], price := some 100, bedrooms := none, bathrooms := none,
     squareFootage := some 100, yearBuilt := none, distance := none, daysOnMarket := some 20 }]

/-- A comparable carrying only the fields the market statistics read. -/
def mkComp (price sqft days : ℚ) : Comp :=
  ⟨[], some price, none, none, some sqft, none, none, some days⟩

/-- Six comparables; `sixCompsB` differs from `sixCompsA` only in the
sixth (never individually displayed) comparable's price. -/
def sixCompsA : List Comp :=
  [mkComp 100 10 5, mkComp 200 10 5, mkComp 300 10 5,
   mkComp 400 10 5, mkComp 500 10 5, mkComp 600 10 5]

def sixCompsB : List Comp :=
  [mkComp 100 10 5, mkComp 200 10 5, mkComp 300 10 5,
   mkComp 400 10 5, mkComp 500 10 5, mkComp 1200 10 5]

/-! ### Error channel of the provider adapters

Every failure raised by the adapters in tools.py is a plain
`ValueError` carrying a message string; an exception is modelled by its
Python class name together with that message. -/

structure PyException where
  excType : String
  msg : PyStr
deriving DecidableEq, Repr

/-- The trailing `except Exception as e: raise ValueError(f"Unexpected
error when calling ATTOM API: {str(e)}")` in `get_property_details`:
any error raised inside the `try` block (including the zero-match
`ValueError`) is re-raised wrapped in this message. -/
def attomWrap (e : PyException) : PyException :=
  ⟨"ValueError", "Unexpected error when calling ATTOM API: ".toList ++ e.msg⟩

/-- The analogous trailing wrapper in `get_property_details_rentcast`. -/
def rentcastWrap (e : PyException) : PyException :=
  ⟨"ValueError", "Unexpected error when calling Rentcast API: ".toList ++ e.msg⟩

/-- The response-inspection stage of the ATTOM adapter
(`get_property_details`): the payload's `status.code` and `status.msg`,
and its `property` list (`none` models an absent or null `property`
key).  The payload entries themselves are opaque here (`α`). -/
structure AttomResponse (α : Type) where
  statusCode : ℤ
  statusMsg : PyStr
  propertyList : Option (List α)
deriving DecidableEq, Repr

/-- Embedding of the ATTOM adapter's post-parse checks: a non-zero
status code raises `ValueError("API error: …")`, a missing or empty
`property` list raises `ValueError("No property found for address:
…")`; both are caught by the function's own `except Exception` clause
and re-raised wrapped (`attomWrap`).  On success the first property is
returned. -/
def attomFetchCheck {α : Type} (address : PyStr) (resp : AttomResponse α) :
    Except PyException α :=
  if resp.statusCode ≠ 0 then
    .error (attomWrap ⟨"ValueError", "API error: ".toList ++ resp.statusMsg⟩)
  else
    match resp.propertyList with
    | none =>
      .error (attomWrap ⟨"ValueError", "No property found for address: ".toList ++ address⟩)
    | some [] =>
      .error (attomWrap ⟨"ValueError", "No property found for address: ".toList ++ address⟩)
    | some (p :: _) => .ok p

/-- Embedding of the Rentcast adapter's zero-match check
(`get_property_details_rentcast`): `if not data or not isinstance(data,
list) or len(data) == 0` raises `ValueError("No property found for
address: …")`, re-raised wrapped by the adapter's own `except
Exception` clause (`rentcastWrap`).  `none` models a null or non-list
body. -/
def rentcastFetchCheck {α : Type} (address : PyStr) (data : Option (List α)) :
    Except PyException α :=
  match data with
  | none =>
    .error (rentcastWrap ⟨"ValueError", "No property found for address: ".toList ++ address⟩)
  | some [] =>
    .error (rentcastWrap ⟨"ValueError", "No property found for address: ".toList ++ address⟩)
  | some (p :: _) => .ok p

/-! ### Rentcast adapter: estimated-value preference chain
(`get_property_details_rentcast`) -/

/-- Python `str.isdigit()` (ASCII range, which is all the year keys
use): non-empty and all decimal digits. -/
def pyIsDigits (s : PyStr) : Bool := !s.isEmpty && s.all Char.isDigit

/-- Python `int(s)` on a digit string. -/
def parseNatDigits (s : PyStr) : Nat :=
  s.foldl (fun a c => a * 10 + (c.toNat - '0'.toNat)) 0

/-- The `latest_year` local: `max([int(year) for year in
tax_assessments.keys() if year.isdigit()], default=0)`. -/
def rentcastLatestYear (taxAssessments : List (PyStr × Option Nat)) : Nat :=
  ((((taxAssessments.map Prod.fst).filter pyIsDigits).map parseNatDigits).foldl Nat.max 0)

/-- Embedding of the `tax_value` computation: when the
`taxAssessments` dict is non-empty and the latest numeric year is
positive, look up `str(latest_year)` in the dict and read its `value`
(default 0 when the year key or `value` entry is missing).  A dict
entry is a `(year-string, value)` pair; the `value` is `Option`
because the nested `.get("value", 0)` defaults it. -/
def rentcastTaxValue (taxAssessments : List (PyStr × Option Nat)) : Nat :=
  if taxAssessments ≠ [] then
    if rentcastLatestYear taxAssessments > 0 then
      match taxAssessments.lookup (pyStrOfNat (rentcastLatestYear taxAssessments)) with
      | some v => v.getD 0
      | none => 0
    else 0
  else 0

/-- The `estimated_value_num` local: `tax_value or valuation or 0`. -/
def rentcastEstimatedValueNum (taxAssessments : List (PyStr × Option Nat))
    (valuation : Option Nat) : Nat :=
  if rentcastTaxValue taxAssessments ≠ 0 then rentcastTaxValue taxAssessments
  else valuation.getD 0

/-- Embedding of the `estimated_value` string construction:
`f"${estimated_value_num:,}" if estimated_value_num else
"Not available"`. -/
def rentcastEstimatedValue (taxAssessments : List (PyStr × Option Nat))
    (valuation : Option Nat) : PyStr :=
  if rentcastEstimatedValueNum taxAssessments valuation ≠ 0 then
    '$' :: commaFmtNat (rentcastEstimatedValueNum taxAssessments valuation)
  else "Not available".toList

/-! ## Theorems -/

example : commaFmtNat 221000 = "221,000".toList := by decide
example : commaFmtNat 0 = "0".toList := by decide
example : commaFmtNat 1234567 = "1,234,567".toList := by decide
example : commaFmtNat 999 = "999".toList := by decide
example : pyStrOfNat 2023 = "2023".toList := by decide
example : pyIntQ (221999/2 : ℚ) = 110999 := by unfold pyIntQ; norm_num
example : pyIntQ (-7/2 : ℚ) = -3 := by unfold pyIntQ; norm_num [Int.ceil_neg]

example :
    rentcastEstimatedValue
      [("2020".toList, some 100000), ("2023".toList, some 221000)] (some 5) =
      "$221,000".toList := by decide

example :
    rentcastEstimatedValue [("2023".toList, some 0)] (some 175000) =
      "$175,000".toList := by decide

example : rentcastEstimatedValue [] none = "Not available".toList := by decide

/-! ### Lemmas about the embedded Python string operations -/

theorem pySplitPred_ne_nil (p : Char → Bool) (l : PyStr) : pySplitPred p l ≠ [] := by
  induction l with
  | nil => simp [pySplitPred]
  | cons x xs ih =>
    simp only [pySplitPred]
    cases h : pySplitPred p xs with
    | nil => exact absurd h ih
    | cons a t =>
      by_cases hp : p x = true <;> simp [hp]

theorem pySplitPred_of_forall_not (p : Char → Bool) (l : PyStr)
    (h : ∀ x ∈ l, p x = false) : pySplitPred p l = [l] := by
  induction l with
  | nil => rfl
  | cons x xs ih =>
    have hx : p x = false := h x (List.mem_cons_self x xs)
    have ih' : pySplitPred p xs = [xs] := ih fun y hy => h y (List.mem_cons_of_mem x hy)
    simp [pySplitPred, ih', hx]

theorem pySplitPred_append (p : Char → Bool) (a b : PyStr) (c : Char)
    (ha : ∀ x ∈ a, p x = false) (hc : p c = true) :
    pySplitPred p (a ++ c :: b) = a :: pySplitPred p b := by
  induction a with
  | nil =>
    simp only [List.nil_append, pySplitPred]
    cases h : pySplitPred p b with
    | nil => exact absurd h (pySplitPred_ne_nil p b)
    | cons x t => simp [hc]
  | cons x xs ih =>
    have hx : p x = false := ha x (List.mem_cons_self x xs)
    have ih' := ih fun y hy => ha y (List.mem_cons_of_mem x hy)
    simp only [List.cons_append, pySplitPred, List.append_eq]
    rw [ih']
    simp [hx]

theorem pySplitOnChar_pair (a b : PyStr)
    (ha : ∀ x ∈ a, x ≠ ',') (hb : ∀ x ∈ b, x ≠ ',') :
    pySplitOnChar ',' (a ++ ',' :: b) = [a, b] := by
  unfold pySplitOnChar
  rw [pySplitPred_append _ a b ',' (fun x hx => by simp [ha x hx]) (by simp)]
  rw [pySplitPred_of_forall_not _ b (fun x hx => by simp [hb x hx])]

theorem pySplitOnChar_triple (a b c : PyStr)
    (ha : ∀ x ∈ a, x ≠ ',') (hb : ∀ x ∈ b, x ≠ ',') (hc : ∀ x ∈ c, x ≠ ',') :
    pySplitOnChar ',' (a ++ ',' :: (b ++ ',' :: c)) = [a, b, c] := by
  unfold pySplitOnChar
  rw [pySplitPred_append _ a (b ++ ',' :: c) ',' (fun x hx => by simp [ha x hx]) (by simp)]
  rw [pySplitPred_append _ b c ',' (fun x hx => by simp [hb x hx]) (by simp)]
  rw [pySplitPred_of_forall_not _ c (fun x hx => by simp [hc x hx])]

theorem dropWhile_pyWs_eq_self (l : PyStr)
    (h : ∀ c, l.head? = some c → isPyWs c = false) : l.dropWhile isPyWs = l := by
  cases l with
  | nil => rfl
  | cons a t =>
    have := h a rfl
    simp [List.dropWhile_cons, this]

theorem pyStrip_eq_self_of_no_ws (l : PyStr) (h : ∀ c ∈ l, isPyWs c = false) :
    pyStrip l = l := by
  unfold pyStrip
  rw [dropWhile_pyWs_eq_self l fun c hc => h c (by
    cases l with
    | nil => simp at hc
    | cons a t => simp at hc; simp [hc])]
  rw [dropWhile_pyWs_eq_self l.reverse fun c hc => h c (by
    have : c ∈ l.reverse := by
      cases hr : l.reverse with
      | nil => rw [hr] at hc; simp at hc
      | cons a t => rw [hr] at hc; simp at hc; simp [hr, hc]
    simpa using this)]
  exact l.reverse_reverse

theorem pyStrip_sandwich (st zp : PyStr) (hst : st ≠ []) (hzp : zp ≠ [])
    (h1 : ∀ c ∈ st, isPyWs c = false) (h2 : ∀ c ∈ zp, isPyWs c = false) :
    pyStrip (st ++ ' ' :: zp) = st ++ ' ' :: zp := by
  obtain ⟨s0, st', rfl⟩ := List.exists_cons_of_ne_nil hst
  have hrev : zp.reverse ≠ [] := by simpa using hzp
  obtain ⟨z0, zt, hz⟩ := List.exists_cons_of_ne_nil hrev
  have hz0 : z0 ∈ zp := by
    have : z0 ∈ zp.reverse := by rw [hz]; exact List.mem_cons_self _ _
    simpa using this
  have hd : ((s0 :: st') ++ ' ' :: zp).dropWhile isPyWs = (s0 :: st') ++ ' ' :: zp := by
    rw [List.cons_append, List.dropWhile_cons,
      if_neg (by simp [h1 s0 (List.mem_cons_self _ _)])]
  have hrev0 : ((s0 :: st') ++ ' ' :: zp).reverse = z0 :: (zt ++ ' ' :: (s0 :: st').reverse) := by
    rw [List.reverse_append, List.reverse_cons]
    rw [hz]
    simp
  have hd2 : (((s0 :: st') ++ ' ' :: zp).reverse).dropWhile isPyWs =
      ((s0 :: st') ++ ' ' :: zp).reverse := by
    rw [hrev0, List.dropWhile_cons, if_neg (by simp [h2 z0 hz0])]
  unfold pyStrip
  rw [hd, hd2, List.reverse_reverse]

theorem pySplitWs_pair (st zp : PyStr) (hst : st ≠ []) (hzp : zp ≠ [])
    (h1 : ∀ c ∈ st, isPyWs c = false) (h2 : ∀ c ∈ zp, isPyWs c = false) :
    pySplitWs (st ++ ' ' :: zp) = [st, zp] := by
  unfold pySplitWs
  rw [pySplitPred_append isPyWs st zp ' ' h1 (by decide)]
  rw [pySplitPred_of_forall_not isPyWs zp h2]
  simp [List.filter, hst, hzp]

theorem pyJoin_single (x : PyStr) : pyJoin [' '] [x] = x := by
  simp [pyJoin, List.intercalate]

/-! ### Auxiliary lemmas: foldl-max and association-list lookup -/

theorem foldlMax_init_le (l : List Nat) (a : Nat) : a ≤ l.foldl Nat.max a := by
  induction l generalizing a with
  | nil => simp
  | cons x xs ih =>
    simp only [List.foldl_cons]
    exact le_trans (Nat.le_max_left a x) (ih (Nat.max a x))

theorem foldlMax_mem_le (l : List Nat) : ∀ a b : Nat, b ∈ l → b ≤ l.foldl Nat.max a := by
  induction l with
  | nil => intro a b hb; cases hb
  | cons x xs ih =>
    intro a b hb
    simp only [List.foldl_cons]
    rcases List.mem_cons.1 hb with rfl | h
    · exact le_trans (Nat.le_max_right a b) (foldlMax_init_le xs _)
    · exact ih _ _ h

theorem foldlMax_le (l : List Nat) :
    ∀ a c : Nat, a ≤ c → (∀ b ∈ l, b ≤ c) → l.foldl Nat.max a ≤ c := by
  induction l with
  | nil => intro a c ha _; simpa using ha
  | cons x xs ih =>
    intro a c ha h
    simp only [List.foldl_cons]
    exact ih _ _ (Nat.max_le.2 ⟨ha, h x (List.mem_cons_self x xs)⟩)
      (fun b hb => h b (List.mem_cons_of_mem x hb))

theorem lookup_eq_some_of_mem_nodup {β : Type} (l : List (PyStr × β)) (k : PyStr)
    (v : β) (hmem : (k, v) ∈ l) (hnd : (l.map Prod.fst).Nodup) :
    l.lookup k = some v := by
  induction l with
  | nil => cases hmem
  | cons p t ih =>
    obtain ⟨k', v'⟩ := p
    rcases List.mem_cons.1 hmem with heq | h
    · have h1 : k = k' := congrArg Prod.fst heq
      have h2 : v = v' := congrArg Prod.snd heq
      subst h1
      subst h2
      simp [List.lookup]
    · have hk : k ≠ k' := by
        rintro rfl
        exact (List.nodup_cons.1 hnd).1
          (List.mem_map.2 ⟨(k, v), h, rfl⟩)
      have hbeq : (k == k') = false := beq_eq_false_iff_ne.2 hk
      rw [List.lookup, hbeq]
      exact ih h (List.nodup_cons.1 hnd).2

/-! ### Claims C1, C7, C8 — the address parser -/

/-- C1, counterexample.  The claim says a 5-digit zip code anywhere in
the input is extracted regardless of comma placement.  The input
`"123 Main St, Springfield 12345"` contains the 5-digit zip `12345`,
yet `parse_address` leaves `zip_code` empty: with exactly two comma
components the zip lands inside the city field and is never pattern
matched. -/
theorem C1_claim_counterexample :
    hasZip5 "123 Main St, Springfield 12345".toList = true ∧
    (parse_address "123 Main St, Springfield 12345".toList).zip_code ≠ "12345".toList ∧
    (parse_address "123 Main St, Springfield 12345".toList).zip_code = [] := by
  decide

/-- C1 (amended): `parse_address` extracts a zip code only from the
expected comma positions, not from anywhere in the string.  For an
address `street, city, ST zip` — three comma components, the last one
stripping to a whitespace-free state token, a single space, and a
whitespace-free zip token, with a non-blank city — the returned
`zip_code` is exactly the zip token (and the state token becomes
`state`).  A zip located in
any other position (e.g. inside the second comma component, see the
counterexample) is not extracted. -/
theorem C1_amended_zip_extraction (a b c st zp : PyStr)
    (ha : ∀ x ∈ a, x ≠ ',') (hb : ∀ x ∈ b, x ≠ ',') (hc : ∀ x ∈ c, x ≠ ',')
    (hsplit : pyStrip c = st ++ ' ' :: zp)
    (hst : st ≠ []) (hstw : ∀ x ∈ st, isPyWs x = false)
    (hzp : zp ≠ []) (hzpw : ∀ x ∈ zp, isPyWs x = false)
    (hcity : pyStrip b ≠ []) :
    parse_address (a ++ ',' :: (b ++ ',' :: c)) =
      ⟨pyStrip a, pyStrip b, st, zp⟩ := by
  have hparts := pySplitOnChar_triple a b c ha hb hc
  unfold parse_address
  rw [hparts]
  simp only [List.length_cons, List.length_nil, List.getD_cons_zero, List.getD_cons_succ,
    List.drop_succ_cons, List.drop_zero, gt_iff_lt, Nat.reduceLT, reduceIte]
  rw [hsplit, pySplitWs_pair st zp hst hzp hstw hzpw]
  simp only [List.length_cons, List.length_nil, List.getD_cons_zero, List.getD_cons_succ,
    List.drop_succ_cons, List.drop_zero, Nat.reduceLT, reduceIte, gt_iff_lt]
  rw [pyJoin_single, pyStrip_eq_self_of_no_ws st hstw, pyStrip_eq_self_of_no_ws zp hzpw]
  rw [if_neg (by intro hand; exact hcity hand.1)]
  norm_num

/-- C1, witness: the amended theorem applied at the concrete address
`"123 Main St, Anytown, CA 12345"`, every hypothesis discharged by
evaluation. -/
theorem C1_amended_zip_extraction_witness :
    parse_address "123 Main St, Anytown, CA 12345".toList =
      ⟨"123 Main St".toList, "Anytown".toList, "CA".toList, "12345".toList⟩ := by
  have h := C1_amended_zip_extraction "123 Main St".toList " Anytown".toList
    " CA 12345".toList "CA".toList "12345".toList
    (by decide) (by decide) (by decide) (by decide) (by decide)
    (by decide) (by decide) (by decide) (by decide)
  have heq : "123 Main St, Anytown, CA 12345".toList =
      "123 Main St".toList ++ ',' :: (" Anytown".toList ++ ',' ::
        " CA 12345".toList) := by decide
  rw [heq, h]
  decide

/-- C7, counterexample.  The claim says that with exactly two comma
components, the city is the text preceding the state/zip token inside
the last component.  On `"123 Main St, Anytown CA 12345"` the code
instead returns the entire second component `"Anytown CA 12345"` as the
city (and leaves state and zip empty): `parts[1].strip()` is taken
wholesale, and the trailing-token heuristic only runs when the city
came out empty. -/
theorem C7_claim_counterexample :
    (parse_address "123 Main St, Anytown CA 12345".toList).city ≠ "Anytown".toList ∧
    parse_address "123 Main St, Anytown CA 12345".toList =
      ⟨"123 Main St".toList, "Anytown CA 12345".toList, [], []⟩ := by
  decide

/-- C7 (amended): for every address that splits on commas into exactly
two components, with a non-blank second component, `parse_address`
returns the first component (stripped) as street and the ENTIRE second
component (stripped) as city — no state/zip token is detected inside it
and `state` and `zip_code` are left empty. -/
theorem C7_amended_two_component_city (a b : PyStr)
    (ha : ∀ x ∈ a, x ≠ ',') (hb : ∀ x ∈ b, x ≠ ',')
    (hcity : pyStrip b ≠ []) :
    parse_address (a ++ ',' :: b) = ⟨pyStrip a, pyStrip b, [], []⟩ := by
  have hparts := pySplitOnChar_pair a b ha hb
  unfold parse_address
  rw [hparts]
  simp only [List.length_cons, List.length_nil, List.getD_cons_zero, List.getD_cons_succ,
    gt_iff_lt, Nat.reduceLT, reduceIte]
  rw [if_neg (by intro hand; exact hcity hand.1)]
  norm_num

/-- C7, witness: the amended theorem applied at
`"123 Main St, Anytown CA 12345"`, hypotheses discharged by
evaluation. -/
theorem C7_amended_two_component_city_witness :
    parse_address "123 Main St, Anytown CA 12345".toList =
      ⟨"123 Main St".toList, "Anytown CA 12345".toList, [], []⟩ := by
  have h := C7_amended_two_component_city "123 Main St".toList
    " Anytown CA 12345".toList (by decide) (by decide) (by decide)
  have heq : "123 Main St, Anytown CA 12345".toList =
      "123 Main St".toList ++ ',' :: " Anytown CA 12345".toList := by decide
  rw [heq, h]
  decide

/-- C8: `parse_address` is total — it always yields an `AddressParts`
record whose four fields are (possibly empty) strings (the Python body
can not raise, and is additionally wrapped in a default-keeping
`try/except`) — and on the no-comma input `"123 Main St"` it returns
the whole input as `street_address` with `city`, `state` and
`zip_code` all empty. -/
theorem C8_parse_address_total_best_effort :
    (∀ s : PyStr, ∃ r : AddressParts, parse_address s = r) ∧
    parse_address "123 Main St".toList = ⟨"123 Main St".toList, [], [], []⟩ := by
  refine ⟨fun s => ⟨parse_address s, rfl⟩, by decide⟩

/-! ### Claim C2 — ATTOM bathroom normalization -/

/-- C2, counterexample.  The claim says a present combined total
(`bathstotal`) is used as-is.  But the fallback triggers on any falsy
total: with `bathstotal` present and equal to `0`, `bathsfull = 3`,
`bathshalf = 0`, the code returns `3`, not the present combined total
`0`. -/
theorem C2_claim_counterexample :
    attomBathrooms ⟨some 0, some 3, some 0⟩ = 3 ∧
    attomBathrooms ⟨some 0, some 3, some 0⟩ ≠ (0 : ℚ) := by
  constructor
  · unfold attomBathrooms
    norm_num
  · unfold attomBathrooms
    norm_num

/-- C2 (amended): the PropertyRecord's bathroom count equals the
provider's combined total when that total is present AND non-zero;
when the combined total is absent, null, or zero, it equals
`full + 0.5 * half` (full and half themselves defaulting to 0 when
absent) — so `full = 2, half = 1` yields `2.5`. -/
theorem C2_amended_bathroom_fallback (rooms : AttomRooms) :
    (∀ t : ℚ, rooms.bathstotal = some t → t ≠ 0 → attomBathrooms rooms = t) ∧
    ((rooms.bathstotal = none ∨ rooms.bathstotal = some 0) →
      attomBathrooms rooms =
        rooms.bathsfull.getD 0 + rooms.bathshalf.getD 0 * 0.5) := by
  constructor
  · intro t ht hne
    unfold attomBathrooms
    rw [ht]
    simp only [Option.getD_some]
    rw [if_neg hne]
  · intro h
    unfold attomBathrooms
    rcases h with h | h <;> rw [h] <;> simp

/-- C2, witness: `bathstotal` absent, `bathsfull = 2`, `bathshalf = 1`
gives `2.5` bathrooms, via the amended theorem. -/
theorem C2_amended_bathroom_fallback_witness :
    attomBathrooms ⟨none, some 2, some 1⟩ = 2.5 := by
  have h := (C2_amended_bathroom_fallback ⟨none, some 2, some 1⟩).2 (Or.inl rfl)
  rw [h]
  norm_num

/-! ### Claim C3 — average of ratios, floor-truncated display -/

/-- C3: for a non-empty comparables list (with the provider's usual
non-negative prices/days and positive areas) the average price per
unit area is the sum of per-comparable `price / area` ratios divided
by the comparable count — demonstrably NOT total price over total area
— and each of the three displayed averages is the floor of the exact
average (Python `int()` truncation, which on these non-negative values
is the floor). -/
theorem C3_avg_of_ratios_floor_display (comps : List Comp) (hne : comps ≠ [])
    (hnn : ∀ c ∈ comps, 0 ≤ c.price.getD 0 ∧ 0 < c.squareFootage.getD 1 ∧
      0 ≤ c.daysOnMarket.getD 0) :
    avgPricePerSqft comps =
      (comps.map fun c => c.price.getD 0 / c.squareFootage.getD 1).sum / (comps.length : ℚ) ∧
    pyIntQ (avgPrice comps) = ⌊avgPrice comps⌋ ∧
    pyIntQ (avgPricePerSqft comps) = ⌊avgPricePerSqft comps⌋ ∧
    pyIntQ (avgDays comps) = ⌊avgDays comps⌋ ∧
    avgPricePerSqft ratioSepExample ≠ ratioOfSumsAlt ratioSepExample := by
  have hlen : (0 : ℚ) ≤ (comps.length : ℚ) := by positivity
  have hprice : 0 ≤ avgPrice comps := by
    unfold avgPrice
    rw [if_pos hne]
    refine div_nonneg (List.sum_nonneg ?_) hlen
    intro x hx
    obtain ⟨c, hc, rfl⟩ := List.mem_map.1 hx
    exact (hnn c hc).1
  have hpps : 0 ≤ avgPricePerSqft comps := by
    unfold avgPricePerSqft
    rw [if_pos hne]
    refine div_nonneg (List.sum_nonneg ?_) hlen
    intro x hx
    obtain ⟨c, hc, rfl⟩ := List.mem_map.1 hx
    exact div_nonneg (hnn c hc).1 (le_of_lt (hnn c hc).2.1)
  have hdays : 0 ≤ avgDays comps := by
    unfold avgDays
    rw [if_pos hne]
    refine div_nonneg (List.sum_nonneg ?_) hlen
    intro x hx
    obtain ⟨c, hc, rfl⟩ := List.mem_map.1 hx
    exact (hnn c hc).2.2
  refine ⟨by unfold avgPricePerSqft; rw [if_pos hne], ?_, ?_, ?_, ?_⟩
  · unfold pyIntQ; rw [if_pos hprice]
  · unfold pyIntQ; rw [if_pos hpps]
  · unfold pyIntQ; rw [if_pos hdays]
  · have hne2 : ratioSepExample ≠ [] := by simp [ratioSepExample]
    unfold avgPricePerSqft
    rw [if_pos hne2]
    unfold ratioOfSumsAlt ratioSepExample
    norm_num

/-- C3, witness: the theorem applied to the two-element
`ratioSepExample` list; its average price per square foot is `50.5`
and is displayed floor-truncated as `50`. -/
theorem C3_avg_of_ratios_floor_display_witness :
    pyIntQ (avgPricePerSqft ratioSepExample) = 50 := by
  have h := (C3_avg_of_ratios_floor_display ratioSepExample
    (by simp [ratioSepExample])
    (by
      intro c hc
      simp only [ratioSepExample, List.mem_cons, List.mem_singleton,
        List.not_mem_nil, or_false] at hc
      rcases hc with rfl | rfl <;> norm_num)).2.2.1
  rw [h]
  have hne2 : ratioSepExample ≠ [] := by simp [ratioSepExample]
  have hval : avgPricePerSqft ratioSepExample = 101 / 2 := by
    unfold avgPricePerSqft
    rw [if_pos hne2]
    unfold ratioSepExample
    norm_num
  rw [hval]
  norm_num

/-! ### Claim C4 — empty comparables list -/

set_option maxRecDepth 8192 in
/-- C4: with an empty comparables list all three averages are `0` (the
guarding conditional returns `0` before any division is reached) and
the market-analysis block renders them as `$0`, `$0` and `0 days`. -/
theorem C4_empty_comparables_render_zero :
    avgPrice [] = 0 ∧ avgPricePerSqft [] = 0 ∧ avgDays [] = 0 ∧
    marketAnalysisSummary [] =
      ("\nMARKET ANALYSIS SUMMARY (EXACT VALUES):\n• EXACT Average Comparable Price: $0\n• EXACT Average Price per Square Foot: $0\n• EXACT Average Days on Market: 0 days\n• EXACT Number of Comparable Properties: 0\n").toList := by
  have h0 : avgPrice [] = 0 := by simp [avgPrice]
  have h1 : avgPricePerSqft [] = 0 := by simp [avgPricePerSqft]
  have h2 : avgDays [] = 0 := by simp [avgDays]
  have hInt : pyIntQ 0 = 0 := by unfold pyIntQ; norm_num
  refine ⟨h0, h1, h2, ?_⟩
  unfold marketAnalysisSummary
  rw [h0, h1, h2, hInt]
  decide

/-! ### Claim C5 — exact pass-through of valuation figures -/

/-- C5, counterexample.  The claim says every numeric figure is passed
through unmodified in magnitude.  But the rendering truncates with
Python `int()`: an upstream estimated value of `220999.5` is rendered
as `"$220,999"` — a different magnitude. -/
theorem C5_claim_counterexample :
    renderEstimatedValue (441999 / 2 : ℚ) = "$220,999".toList ∧
    ((pyIntQ (441999 / 2 : ℚ) : ℚ) ≠ (441999 / 2 : ℚ)) := by
  have h : pyIntQ (441999 / 2 : ℚ) = 220999 := by unfold pyIntQ; norm_num
  constructor
  · unfold renderEstimatedValue
    rw [h]
    decide
  · rw [h]
    norm_num

/-- C5 (amended): the valuation adapter renders figures after
truncating them to integers with `int()`, so only integer-valued
figures are passed through exactly; for every natural `n` the rendered
estimated value is `$` followed by `n` with thousands separators, and
in particular `221000` renders as exactly `"$221,000"` (never rounded
to `"$220,000"`). -/
theorem C5_amended_integer_figures_exact :
    (∀ n : ℕ, renderEstimatedValue (n : ℚ) = '$' :: commaFmtNat n) ∧
    renderEstimatedValue (221000 : ℚ) = "$221,000".toList := by
  have key : ∀ n : ℕ, renderEstimatedValue (n : ℚ) = '$' :: commaFmtNat n := by
    intro n
    unfold renderEstimatedValue pyIntQ
    rw [if_pos (by positivity), Int.floor_natCast]
    unfold commaFmtInt
    rw [if_neg (by omega)]
    simp
  refine ⟨key, ?_⟩
  have h := key 221000
  rw [show ((221000 : ℕ) : ℚ) = (221000 : ℚ) by norm_num] at h
  rw [h]
  decide

/-! ### Claim C6 — zero-match error typing -/

/-- C6, counterexample.  The claim says a zero-match response fails
with a typed `NotFoundError` distinguishable from generic failure.  At
the concrete empty `property` list the ATTOM adapter instead raises the
same generic `ValueError` class it uses for an API-status failure —
the zero-match case is not a distinct exception type. -/
theorem C6_claim_counterexample :
    attomFetchCheck (α := Unit) "1 Elm St".toList ⟨0, [], some []⟩ =
      .error ⟨"ValueError",
        "Unexpected error when calling ATTOM API: No property found for address: 1 Elm St".toList⟩ ∧
    attomFetchCheck (α := Unit) "1 Elm St".toList ⟨-1, "Internal error".toList, some []⟩ =
      .error ⟨"ValueError",
        "Unexpected error when calling ATTOM API: API error: Internal error".toList⟩ ∧
    (attomFetchCheck (α := Unit) "1 Elm St".toList ⟨0, [], some []⟩ ≠
      .error ⟨"NotFoundError",
        "Unexpected error when calling ATTOM API: No property found for address: 1 Elm St".toList⟩) := by
  refine ⟨?_, ?_, ?_⟩ <;> simp [attomFetchCheck, attomWrap]

/-- C6 (amended): on every zero-match response (absent/null `property`
key, empty `property` list, or empty/non-list Rentcast body) the
adapters raise the generic `ValueError` — the same exception class used
for all their failures — whose message is the adapter's "Unexpected
error when calling … API:" wrapper around "No property found for
address: ⟨address⟩"; the zero-match case is distinguishable only by
this message text, not by a dedicated exception type. -/
theorem C6_amended_zero_match_is_generic_valueerror {α : Type} (address m : PyStr) :
    attomFetchCheck (α := α) address ⟨0, m, none⟩ =
      .error ⟨"ValueError",
        "Unexpected error when calling ATTOM API: No property found for address: ".toList
          ++ address⟩ ∧
    attomFetchCheck (α := α) address ⟨0, m, some []⟩ =
      .error ⟨"ValueError",
        "Unexpected error when calling ATTOM API: No property found for address: ".toList
          ++ address⟩ ∧
    rentcastFetchCheck (α := α) address none =
      .error ⟨"ValueError",
        "Unexpected error when calling Rentcast API: No property found for address: ".toList
          ++ address⟩ ∧
    rentcastFetchCheck (α := α) address (some []) =
      .error ⟨"ValueError",
        "Unexpected error when calling Rentcast API: No property found for address: ".toList
          ++ address⟩ := by
  refine ⟨?_, ?_, ?_, ?_⟩ <;>
    simp [attomFetchCheck, rentcastFetchCheck, attomWrap, rentcastWrap]

/-! ### Claim C9 — averages over all comparables, details over five -/

/-- C9: the per-comparable detail section of the valuation report
depends only on the first five comparables (`comparables[:5]`), while
the market-analysis averages are computed over the entire fetched
list: two six-element comparable lists differing only in the sixth
comparable produce identical detail sections but different average
prices, so the averages include comparables not individually
displayed. -/
theorem C9_averages_full_list_details_first_five :
    (∀ comps : List Comp, compDetailSection comps = compDetailSection (comps.take 5)) ∧
    sixCompsA ≠ sixCompsB ∧
    sixCompsA.take 5 = sixCompsB.take 5 ∧
    compDetailSection sixCompsA = compDetailSection sixCompsB ∧
    avgPrice sixCompsA ≠ avgPrice sixCompsB ∧
    avgPrice sixCompsA =
      (sixCompsA.map fun c => c.price.getD 0).sum / (sixCompsA.length : ℚ) := by
  have h1 : ∀ comps : List Comp,
      compDetailSection comps = compDetailSection (comps.take 5) := by
    intro comps
    unfold compDetailSection
    rw [List.take_take]
    norm_num
  have htake : sixCompsA.take 5 = sixCompsB.take 5 := rfl
  refine ⟨h1, ?_, htake, ?_, ?_, ?_⟩
  · intro h
    norm_num [sixCompsA, sixCompsB, mkComp] at h
  · rw [h1 sixCompsA, htake, ← h1 sixCompsB]
  · have hA : avgPrice sixCompsA = 350 := by
      unfold avgPrice
      rw [if_pos (by simp [sixCompsA])]
      unfold sixCompsA mkComp
      norm_num
    have hB : avgPrice sixCompsB = 450 := by
      unfold avgPrice
      rw [if_pos (by simp [sixCompsB])]
      unfold sixCompsB mkComp
      norm_num
    rw [hA, hB]
    norm_num
  · unfold avgPrice
    rw [if_pos (by simp [sixCompsA])]

/-! ### Claim C10 — Rentcast estimated-value preference chain -/

/-- C10: the Rentcast adapter's estimated value follows the fixed
preference chain.  For a tax-assessment dict with canonical, distinct
digit-string year keys: (1) if the entry whose numeric year is
maximal has a non-zero value `v`, the estimated value renders as `$v`
with thousands separators; (2) if the tax side contributes `0` (no
usable assessment) and the payload's `valuation` is non-zero, that
valuation is rendered the same way; (3) if both are zero/absent, the
sentinel `"Not available"` results. -/
theorem C10_rentcast_estimated_value_chain (tas : List (PyStr × Option Nat))
    (valuation : Option Nat)
    (hk : ∀ p ∈ tas, pyIsDigits p.1 = true ∧ pyStrOfNat (parseNatDigits p.1) = p.1)
    (hnd : (tas.map Prod.fst).Nodup) :
    (∀ k v, (k, some v) ∈ tas →
        (∀ p ∈ tas, parseNatDigits p.1 ≤ parseNatDigits k) →
        0 < parseNatDigits k → v ≠ 0 →
        rentcastEstimatedValue tas valuation = '$' :: commaFmtNat v) ∧
    (rentcastTaxValue tas = 0 → valuation.getD 0 ≠ 0 →
        rentcastEstimatedValue tas valuation = '$' :: commaFmtNat (valuation.getD 0)) ∧
    (rentcastTaxValue tas = 0 → valuation.getD 0 = 0 →
        rentcastEstimatedValue tas valuation = "Not available".toList) := by
  refine ⟨?_, ?_, ?_⟩
  · intro k v hmem hmax hpos hv
    have hne : tas ≠ [] := by
      intro h
      rw [h] at hmem
      cases hmem
    have hfilter : (tas.map Prod.fst).filter pyIsDigits = tas.map Prod.fst := by
      apply List.filter_eq_self.mpr
      intro x hx
      obtain ⟨p, hp, rfl⟩ := List.mem_map.1 hx
      exact (hk p hp).1
    have hyear : rentcastLatestYear tas = parseNatDigits k := by
      unfold rentcastLatestYear
      rw [hfilter]
      apply le_antisymm
      · apply foldlMax_le _ _ _ (Nat.zero_le _)
        intro b hb
        obtain ⟨k', hk', rfl⟩ := List.mem_map.1 hb
        obtain ⟨p, hp, rfl⟩ := List.mem_map.1 hk'
        exact hmax p hp
      · exact foldlMax_mem_le _ _ _
          (List.mem_map.2 ⟨k, List.mem_map.2 ⟨(k, some v), hmem, rfl⟩, rfl⟩)
    have hkey : pyStrOfNat (parseNatDigits k) = k := (hk (k, some v) hmem).2
    have htax : rentcastTaxValue tas = v := by
      unfold rentcastTaxValue
      rw [if_pos hne, hyear, if_pos hpos, hkey,
        lookup_eq_some_of_mem_nodup tas k (some v) hmem hnd]
      rfl
    have hnum : rentcastEstimatedValueNum tas valuation = v := by
      unfold rentcastEstimatedValueNum
      rw [htax, if_pos hv]
    unfold rentcastEstimatedValue
    rw [hnum, if_pos hv]
  · intro h0 hval
    have hnum : rentcastEstimatedValueNum tas valuation = valuation.getD 0 := by
      unfold rentcastEstimatedValueNum
      rw [h0]
      simp
    unfold rentcastEstimatedValue
    rw [hnum, if_pos hval]
  · intro h0 hval
    have hnum : rentcastEstimatedValueNum tas valuation = 0 := by
      unfold rentcastEstimatedValueNum
      rw [h0, hval]
      simp
    unfold rentcastEstimatedValue
    rw [hnum]
    simp

/-- C10, witness: a dict with assessments for 2020 and 2023 and a
non-zero 2023 value of 221000 renders `"$221,000"` via the first arm
of the preference chain, every hypothesis discharged by evaluation. -/
theorem C10_rentcast_estimated_value_chain_witness :
    rentcastEstimatedValue
      [("2020".toList, some 100000), ("2023".toList, some 221000)] (some 5) =
      "$221,000".toList := by
  have h := (C10_rentcast_estimated_value_chain
      [("2020".toList, some 100000), ("2023".toList, some 221000)] (some 5)
      (by decide) (by decide)).1 "2023".toList 221000
      (by decide) (by decide) (by decide) (by decide)
  rw [h]
  decide
